import Mathlib

/-!
Verification of the order-engine core of the TelegramBot repository.

The definitions below are a shallow embedding of the in-memory store
(`src/src/services/memory-store.ts`) and of the bot-level flows that the
claims reference (`src/src/bot.ts`): JS `Map`s keyed by the order id become
association lists with first-match get/set, wall-clock reads
(`new Date().toISOString()`) become an explicit `now : Nat` argument, and
JS truthiness checks on optional fields become explicit tests on `Option`
values (`0` and `""` count as absent, as in the source).
-/

namespace TelegramBot

/-- Order status enum, from `Order['status']` in `src/src/types/index.ts`. -/
inductive Status where
  | cart
  | pending
  | preparing
  | ready_for_pickup
  | completed
  | cancelled
deriving DecidableEq, Repr

/-- Pickup location enum, from `Order['pickup_location']`. -/
inductive Location where
  | left_buffer
  | right_buffer
  | delivery
deriving DecidableEq, Repr

/-- Delivery side enum, from `Order['delivery_side']`. -/
inductive Side where
  | left
  | right
deriving DecidableEq, Repr

/-- The two counter-staff roles served by the seller queries. -/
inductive SellerRole where
  | seller_left
  | seller_right
deriving DecidableEq, Repr

/-- Product record, from the `Product` interface. -/
structure Product where
  id : Nat
  name : String
  category : String
  price : Int
  is_available : Bool
deriving DecidableEq, Repr

/-- Order record, from the `Order` interface; timestamps are modelled as
naturals (milliseconds since epoch stand in for ISO strings). -/
structure Order where
  id : Nat
  customer_id : Nat
  status : Status
  pickup_location : Option Location
  total_amount : Int
  delivery_side : Option Side
  sector : Option Nat
  seat_row : Option String
  seat_number : Option String
  created_at : Nat
  updated_at : Nat
deriving DecidableEq, Repr

/-- Line-item record, from the `OrderItem` interface. -/
structure OrderItem where
  id : Nat
  order_id : Nat
  product_id : Nat
  quantity : Int
  price_at_time : Int
deriving DecidableEq, Repr

/-- A line item joined with its (possibly missing) catalog product, as built
by `getOrderWithItems`. -/
structure ItemWithProduct where
  item : OrderItem
  product : Option Product
deriving DecidableEq, Repr

/-- An order joined with its line items, from the `OrderWithItems` interface. -/
structure OrderWithItems where
  order : Order
  order_items : List ItemWithProduct
deriving DecidableEq, Repr

/-- The four delivery fields of `Partial<Order>` that `updateOrderStatus`
reads from its `deliveryDetails` argument. -/
structure DeliveryDetails where
  delivery_side : Option Side
  sector : Option Nat
  seat_row : Option String
  seat_number : Option String
deriving DecidableEq, Repr

/-- The per-account delivery wizard scratch state, from the `DeliverySession`
interface. -/
structure DeliverySession where
  side : Option Side
  sector : Option Nat
  row : Option String
  seat : Option String
  orderId : Option Nat
deriving DecidableEq, Repr

/-- The mutable state of `MemoryStore`: the two `Map`s (as association lists in
insertion order), the catalog, and the two id counters. -/
structure Store where
  orders : List Order
  orderItems : List (Nat × List OrderItem)
  products : List Product
  nextOrderId : Nat
  nextOrderItemId : Nat
deriving DecidableEq, Repr

/-- `this.orders.get(orderId)`: first entry with the given id. -/
def findOrder : List Order → Nat → Option Order
  | [], _ => none
  | o :: t, oid => if o.id = oid then some o else findOrder t oid

/-- `this.orders.set(o.id, o)`: replace the first entry with the same id,
else append (JS `Map` insertion-order semantics with the id as key). -/
def setOrder : List Order → Order → List Order
  | [], o => [o]
  | a :: t, o => if a.id = o.id then o :: t else a :: setOrder t o

/-- `this.orderItems.get(orderId) || []`. -/
def getItemsL : List (Nat × List OrderItem) → Nat → List OrderItem
  | [], _ => []
  | e :: t, oid => if e.1 = oid then e.2 else getItemsL t oid

/-- `this.orderItems.set(orderId, items)`. -/
def setItems : List (Nat × List OrderItem) → Nat → List OrderItem → List (Nat × List OrderItem)
  | [], oid, items => [(oid, items)]
  | e :: t, oid, items => if e.1 = oid then (oid, items) :: t else e :: setItems t oid items

def getOrder (s : Store) (orderId : Nat) : Option Order :=
  findOrder s.orders orderId

def getItems (s : Store) (orderId : Nat) : List OrderItem :=
  getItemsL s.orderItems orderId

/-- `getProductById`: `this.products.find(p => p.id === id)`. -/
def getProductById (s : Store) (id : Nat) : Option Product :=
  s.products.find? (fun p => p.id == id)

/-- The product catalog seeded in the `MemoryStore` constructor
(`src/src/services/memory-store.ts`, lines 8-20). -/
def initialProducts : List Product :=
  [ ⟨1, "Сладкий попкорн", "popcorn", 150, true⟩,
    ⟨2, "Соленый попкорн", "popcorn", 150, true⟩,
    ⟨3, "Карамельный попкорн", "popcorn", 200, true⟩,
    ⟨4, "Кока-кола", "drinks", 100, true⟩,
    ⟨5, "Спрайт", "drinks", 100, true⟩,
    ⟨6, "Фанта", "drinks", 100, true⟩,
    ⟨7, "Вода", "drinks", 50, true⟩,
    ⟨8, "Сок яблочный", "drinks", 120, true⟩,
    ⟨9, "Розовая вата", "cotton_candy", 180, true⟩,
    ⟨10, "Голубая вата", "cotton_candy", 180, true⟩,
    ⟨11, "Белая вата", "cotton_candy", 180, true⟩ ]

/-- The store as constructed: empty maps, catalog seeded, counters at 1. -/
def Store.init : Store :=
  ⟨[], [], initialProducts, 1, 1⟩

/-- `Array.from(this.orders.values()).find(o => o.customer_id === c && o.status === 'cart')`. -/
def findCart : List Order → Nat → Option Order
  | [], _ => none
  | o :: t, c =>
    if o.customer_id = c ∧ o.status = Status.cart then some o else findCart t c

/-- `getOrCreateCartOrder` (`memory-store.ts`, lines 57-80): return the first
existing cart for the customer, else create a fresh order in status `cart`
with zero total and an empty item list. -/
def getOrCreateCartOrder (s : Store) (customerId : Nat) (now : Nat) : Order × Store :=
  match findCart s.orders customerId with
  | some existing => (existing, s)
  | none =>
    let newOrder : Order :=
      ⟨s.nextOrderId, customerId, Status.cart, none, 0, none, none, none, none, now, now⟩
    (newOrder,
      { s with
        orders := setOrder s.orders newOrder
        orderItems := setItems s.orderItems newOrder.id []
        nextOrderId := s.nextOrderId + 1 })

/-- `items.reduce((sum, item) => sum + item.quantity * item.price_at_time, 0)`. -/
def itemsTotal (items : List OrderItem) : Int :=
  items.foldl (fun sum it => sum + it.quantity * it.price_at_time) 0

/-- `updateOrderTotal` (`memory-store.ts`, lines 109-119): recompute the total
from the live item list and write it back when the order exists. -/
def updateOrderTotal (s : Store) (orderId : Nat) (now : Nat) : Store :=
  let total := itemsTotal (getItems s orderId)
  match getOrder s orderId with
  | none => s
  | some o =>
    { s with orders := setOrder s.orders { o with total_amount := total, updated_at := now } }

/-- `items.find(item => item.product_id === productId)` followed by the
in-place `existingItem.quantity += quantity`: bump the first matching line
item, or report `none` when no line item has this product. -/
def bumpFirst : List OrderItem → Nat → Int → Option (List OrderItem)
  | [], _, _ => none
  | it :: rest, productId, quantity =>
    if it.product_id = productId then
      some ({ it with quantity := it.quantity + quantity } :: rest)
    else
      (bumpFirst rest productId quantity).map (fun r => it :: r)

/-- `addItemToOrder` (`memory-store.ts`, lines 82-107): merge into an existing
line item or push a fresh one, then recompute the total. The source performs
no existence check on the order and its `try` block cannot throw, so the
result is always `true`. -/
def addItemToOrder (s : Store) (orderId productId : Nat) (quantity price : Int)
    (now : Nat) : Bool × Store :=
  let items := getItems s orderId
  let upd : Store :=
    match bumpFirst items productId quantity with
    | some items2 => { s with orderItems := setItems s.orderItems orderId items2 }
    | none =>
      let newItem : OrderItem := ⟨s.nextOrderItemId, orderId, productId, quantity, price⟩
      { s with
        orderItems := setItems s.orderItems orderId (items ++ [newItem])
        nextOrderItemId := s.nextOrderItemId + 1 }
  (true, updateOrderTotal upd orderId now)

/-- `getOrderWithItems` (`memory-store.ts`, lines 121-135). -/
def getOrderWithItems (s : Store) (orderId : Nat) : Option OrderWithItems :=
  match getOrder s orderId with
  | none => none
  | some o =>
    some ⟨o, (getItems s orderId).map (fun it => ⟨it, getProductById s it.product_id⟩)⟩

/-- The four `if (deliveryDetails.field) order.field = deliveryDetails.field`
assignments of `updateOrderStatus`; `0` and `""` are falsy in the source and
therefore skipped. -/
def applyDeliveryDetails (o : Order) (d : DeliveryDetails) : Order :=
  let o1 := match d.delivery_side with
    | some v => { o with delivery_side := some v }
    | none => o
  let o2 := match d.sector with
    | some v => if v = 0 then o1 else { o1 with sector := some v }
    | none => o1
  let o3 := match d.seat_row with
    | some v => if v = "" then o2 else { o2 with seat_row := some v }
    | none => o2
  match d.seat_number with
  | some v => if v = "" then o3 else { o3 with seat_number := some v }
  | none => o3

/-- The in-place field updates of `updateOrderStatus` on the fetched order:
overwrite `status` and `updated_at`, set `pickup_location` when one is
supplied, and copy the supplied delivery fields only when the pickup location
argument is `delivery`. -/
def updOrder (o : Order) (status : Status) (pickupLocation : Option Location)
    (deliveryDetails : Option DeliveryDetails) (now : Nat) : Order :=
  let o1 := { o with status := status, updated_at := now }
  let o2 := match pickupLocation with
    | some loc => { o1 with pickup_location := some loc }
    | none => o1
  match deliveryDetails with
  | some d =>
    if pickupLocation = some Location.delivery then applyDeliveryDetails o2 d else o2
  | none => o2

/-- `updateOrderStatus` (`memory-store.ts`, lines 137-157): unconditional
status overwrite of an existing order; fails only when the order does not
exist. -/
def updateOrderStatus (s : Store) (orderId : Nat) (status : Status)
    (pickupLocation : Option Location) (deliveryDetails : Option DeliveryDetails)
    (now : Nat) : Bool × Store :=
  match getOrder s orderId with
  | none => (false, s)
  | some o =>
    (true,
      { s with orders := setOrder s.orders (updOrder o status pickupLocation deliveryDetails now) })

/-- Insert into a list sorted by `le`, keeping earlier-inserted elements first
among ties (the stable behaviour of `Array.prototype.sort`). -/
def insertLe (le : α → α → Bool) (a : α) : List α → List α
  | [] => [a]
  | b :: t => if le a b then a :: b :: t else b :: insertLe le a t

/-- Comparator sort, modelling `Array.prototype.sort` with a numeric
comparator. -/
def sortLe (le : α → α → Bool) : List α → List α
  | [] => []
  | a :: t => insertLe le a (sortLe le t)

/-- `getOrdersByCustomer` (`memory-store.ts`, lines 159-163): the customer's
non-cart orders, newest first. -/
def getOrdersByCustomer (s : Store) (customerId : Nat) : List Order :=
  sortLe (fun a b => decide (b.created_at ≤ a.created_at))
    (s.orders.filter (fun o => decide (o.customer_id = customerId ∧ o.status ≠ Status.cart)))

/-- Role → pickup-location mapping shared by both seller queries. -/
def roleLocation : SellerRole → Location
  | SellerRole.seller_left => Location.left_buffer
  | SellerRole.seller_right => Location.right_buffer

/-- `getPendingOrdersForSeller` (`memory-store.ts`, lines 165-173): pending
orders at the role's counter, joined with items, oldest first. -/
def getPendingOrdersForSeller (s : Store) (role : SellerRole) : List OrderWithItems :=
  sortLe (fun a b => decide (a.order.created_at ≤ b.order.created_at))
    ((s.orders.filter (fun o =>
        decide (o.pickup_location = some (roleLocation role) ∧ o.status = Status.pending))).filterMap
      (fun o => getOrderWithItems s o.id))

/-- `getActiveOrdersForSeller` (`memory-store.ts`, lines 175-186): orders at
the role's counter in status `preparing` or `ready_for_pickup`, joined with
items, oldest first. -/
def getActiveOrdersForSeller (s : Store) (role : SellerRole) : List OrderWithItems :=
  sortLe (fun a b => decide (a.order.created_at ≤ b.order.created_at))
    ((s.orders.filter (fun o =>
        decide (o.pickup_location = some (roleLocation role) ∧
          (o.status = Status.preparing ∨ o.status = Status.ready_for_pickup)))).filterMap
      (fun o => getOrderWithItems s o.id))

/-- `atomicStatusUpdate` (`memory-store.ts`, lines 188-198): compare-and-swap
on the status field; fails without touching the store when the order is
missing or its status is not the expected one. -/
def atomicStatusUpdate (s : Store) (orderId : Nat) (expectedStatus newStatus : Status)
    (now : Nat) : Bool × Store :=
  match getOrder s orderId with
  | none => (false, s)
  | some o =>
    if o.status = expectedStatus then
      (true, { s with orders := setOrder s.orders { o with status := newStatus, updated_at := now } })
    else
      (false, s)

/-- Modelled from the spec: `update_item_quantity(order_id, product_id, quantity)`
of the storage port (the `DatabaseService` of `src/services/supabase` is absent
from the sources; only its caller at `src/src/bot.ts:1424` is present). Sets
the line item's quantity and, as for every item mutation, recomputes the
order's total as the last step. -/
def updateItemQuantity (s : Store) (orderId productId : Nat) (quantity : Int)
    (now : Nat) : Bool × Store :=
  let items := getItems s orderId
  if items.any (fun it => it.product_id == productId) then
    let items2 := items.map (fun it =>
      if it.product_id = productId then { it with quantity := quantity } else it)
    let upd := { s with orderItems := setItems s.orderItems orderId items2 }
    (true, updateOrderTotal upd orderId now)
  else
    (false, s)

/-- Modelled from the spec: `remove_item(order_id, product_id)` of the storage
port (absent from the sources; caller at `src/src/bot.ts:1458`). Removes the
product's line item (success-with-no-change when already absent) and
recomputes the total. -/
def removeItemFromOrder (s : Store) (orderId productId : Nat) (now : Nat) :
    Bool × Store :=
  let items := (getItems s orderId).filter (fun it => it.product_id != productId)
  let upd := { s with orderItems := setItems s.orderItems orderId items }
  (true, updateOrderTotal upd orderId now)

/-- Modelled from the spec: `clear(order_id)` of the storage port (absent from
the sources; caller at `src/src/bot.ts:1914`). Empties the order's line items
and recomputes the total. -/
def clearCart (s : Store) (orderId : Nat) (now : Nat) : Bool × Store :=
  let upd := { s with orderItems := setItems s.orderItems orderId [] }
  (true, updateOrderTotal upd orderId now)

/-- Modelled from the spec: `updateOrderDeliveryDetails` of the storage port
(absent from the sources; caller at `src/src/bot.ts:486`) commits the four
wizard-captured values onto the order; fails when the order does not exist. -/
def updateOrderDeliveryDetails (s : Store) (orderId : Nat) (side : Side)
    (sector : Nat) (row seat : String) (now : Nat) : Bool × Store :=
  match getOrder s orderId with
  | none => (false, s)
  | some o =>
    let o2 := { o with
      delivery_side := some side
      sector := some sector
      seat_row := some row
      seat_number := some seat
      updated_at := now }
    (true, { s with orders := setOrder s.orders o2 })

/-- `processCheckout` (`src/src/bot.ts`, lines 1555-1612), run against the
in-memory store: fetch the customer's cart (creating one when absent), abort
when it has no items, otherwise move it to `pending` with the chosen pickup
location and optional delivery details. The returned flag is true exactly
when the order status was changed. -/
def processCheckout (s : Store) (userId : Nat) (pickupLocation : Location)
    (deliveryDetails : Option DeliveryDetails) (now : Nat) : Bool × Store :=
  let res := getOrCreateCartOrder s userId now
  let cartOrder := res.1
  let s1 := res.2
  match getOrderWithItems s1 cartOrder.id with
  | none => (false, s1)
  | some ow =>
    if ow.order_items.isEmpty then
      (false, s1)
    else
      updateOrderStatus s1 cartOrder.id Status.pending (some pickupLocation)
        deliveryDetails now

/-- The `confirm_cancel` action handler (`src/src/bot.ts`, lines 1702-1737):
try the compare-and-swap from `pending`, and if that fails, from `preparing`. -/
def confirmCancel (s : Store) (orderId : Nat) (now : Nat) : Bool × Store :=
  let first := atomicStatusUpdate s orderId Status.pending Status.cancelled now
  if first.1 then first
  else atomicStatusUpdate first.2 orderId Status.preparing Status.cancelled now

/-- `completeDeliveryProcess` (`src/src/bot.ts`, lines 474-527): the guard at
line 478 rejects the session when any of orderId, side, sector, row, seat is
missing (or falsy: order id `0`, sector `0`, empty row/seat); only with all
five present does it write the delivery details and move the order to
`pending` at location `delivery`. -/
def completeDeliveryProcess (s : Store) (sess : DeliverySession) (now : Nat) :
    Bool × Store :=
  match sess.orderId, sess.side, sess.sector, sess.row, sess.seat with
  | some oid, some side, some sector, some row, some seat =>
    if oid = 0 ∨ sector = 0 ∨ row = "" ∨ seat = "" then
      (false, s)
    else
      let det := updateOrderDeliveryDetails s oid side sector row seat now
      if det.1 then
        updateOrderStatus det.2 oid Status.pending (some Location.delivery) none now
      else
        (false, det.2)
  | _, _, _, _, _ => (false, s)

/-- `n` successive claim attempts (`atomicStatusUpdate(orderId, 'pending',
'preparing')`, as issued by the take-order action at `src/src/bot.ts:1837`),
collecting each reported result. -/
def claimSeq (s : Store) (orderId : Nat) (now : Nat) : Nat → List Bool × Store
  | 0 => ([], s)
  | n + 1 =>
    let first := atomicStatusUpdate s orderId Status.pending Status.preparing now
    let rest := claimSeq first.2 orderId now n
    (first.1 :: rest.1, rest.2)

/-- At most one `cart`-status order per customer in the order list. -/
def cartCount (l : List Order) (c : Nat) : Nat :=
  (l.filter (fun o => decide (o.customer_id = c ∧ o.status = Status.cart))).length

/-- The at-most-one-cart invariant over all accounts. -/
def CartInv (s : Store) : Prop :=
  ∀ c, cartCount s.orders c ≤ 1

/-- Well-formedness of the order map: ids are pairwise distinct (JS `Map` keys)
and below the id counter. -/
def NodupIds (s : Store) : Prop :=
  (s.orders.map (fun o => o.id)).Nodup

def FreshIds (s : Store) : Prop :=
  ∀ o ∈ s.orders, o.id < s.nextOrderId

instance : DecidablePred CartInv := fun s =>
  decidable_of_iff
    (∀ c ∈ s.orders.map (fun o : Order => o.customer_id), cartCount s.orders c ≤ 1)
    (by
      constructor
      · intro h c
        by_cases hc : c ∈ s.orders.map (fun o : Order => o.customer_id)
        · exact h c hc
        · unfold cartCount
          rw [List.filter_eq_nil_iff.mpr]
          · simp
          · intro o ho hpo
            simp only [decide_eq_true_eq] at hpo
            exact hc (List.mem_map.mpr ⟨o, ho, hpo.1⟩)
      · intro h c _
        exact h c)

instance : DecidablePred NodupIds := fun s =>
  inferInstanceAs (Decidable ((s.orders.map (fun o : Order => o.id)).Nodup))

instance : DecidablePred FreshIds := fun s =>
  inferInstanceAs (Decidable (∀ o ∈ s.orders, o.id < s.nextOrderId))

theorem findOrder_some_id {l : List Order} {oid : Nat} {o : Order}
    (h : findOrder l oid = some o) : o.id = oid := by
  induction l with
  | nil => simp [findOrder] at h
  | cons a t ih =>
    by_cases ha : a.id = oid
    · simp [findOrder, ha] at h
      rw [← h]
      exact ha
    · simp [findOrder, ha] at h
      exact ih h

theorem findOrder_setOrder_self (l : List Order) (o : Order) :
    findOrder (setOrder l o) o.id = some o := by
  induction l with
  | nil => simp [setOrder, findOrder]
  | cons a t ih =>
    by_cases ha : a.id = o.id
    · simp [setOrder, ha, findOrder]
    · simp [setOrder, ha, findOrder, ih]

theorem findOrder_setOrder_ne (l : List Order) (o : Order) {j : Nat} (h : j ≠ o.id) :
    findOrder (setOrder l o) j = findOrder l j := by
  have hoj : ¬ o.id = j := fun hc => h hc.symm
  induction l with
  | nil => simp [setOrder, findOrder, hoj]
  | cons a t ih =>
    rw [setOrder]
    by_cases ha : a.id = o.id
    · have haj : ¬ a.id = j := by rw [ha]; exact hoj
      rw [if_pos ha]
      show findOrder (o :: t) j = findOrder (a :: t) j
      simp only [findOrder, if_neg hoj, if_neg haj]
    · rw [if_neg ha]
      by_cases haj : a.id = j
      · simp only [findOrder, if_pos haj]
      · simp only [findOrder, if_neg haj]
        exact ih

theorem getItemsL_setItems_self (m : List (Nat × List OrderItem)) (oid : Nat)
    (items : List OrderItem) : getItemsL (setItems m oid items) oid = items := by
  induction m with
  | nil => simp [setItems, getItemsL]
  | cons e t ih =>
    by_cases he : e.1 = oid
    · simp [setItems, he, getItemsL]
    · simp [setItems, he, getItemsL, ih]

theorem getItemsL_setItems_ne (m : List (Nat × List OrderItem)) (oid : Nat)
    (items : List OrderItem) {j : Nat} (h : j ≠ oid) :
    getItemsL (setItems m oid items) j = getItemsL m j := by
  have hoj : ¬ oid = j := fun hc => h hc.symm
  induction m with
  | nil => simp [setItems, getItemsL, hoj]
  | cons e t ih =>
    rw [setItems]
    by_cases he : e.1 = oid
    · have hej : ¬ e.1 = j := by rw [he]; exact hoj
      rw [if_pos he]
      show getItemsL ((oid, items) :: t) j = getItemsL (e :: t) j
      simp only [getItemsL, if_neg hoj, if_neg hej]
    · rw [if_neg he]
      by_cases hej : e.1 = j
      · simp only [getItemsL, if_pos hej]
      · simp only [getItemsL, if_neg hej]
        exact ih

theorem findCart_mem {l : List Order} {c : Nat} {o : Order}
    (h : findCart l c = some o) :
    o ∈ l ∧ o.customer_id = c ∧ o.status = Status.cart := by
  induction l with
  | nil => simp [findCart] at h
  | cons a t ih =>
    by_cases ha : a.customer_id = c ∧ a.status = Status.cart
    · simp [findCart, ha] at h
      subst h
      exact ⟨List.mem_cons_self a t, ha⟩
    · simp [findCart, ha] at h
      rcases ih h with ⟨hm, hp⟩
      exact ⟨List.mem_cons_of_mem a hm, hp⟩

theorem findCart_none {l : List Order} {c : Nat} (h : findCart l c = none) :
    ∀ o ∈ l, ¬ (o.customer_id = c ∧ o.status = Status.cart) := by
  induction l with
  | nil => simp
  | cons a t ih =>
    by_cases ha : a.customer_id = c ∧ a.status = Status.cart
    · simp [findCart, ha] at h
    · simp [findCart, ha] at h
      intro o ho
      rcases List.mem_cons.mp ho with rfl | hmem
      · exact ha
      · exact ih h o hmem

theorem findOrder_eq_self_of_nodup {l : List Order} {o : Order}
    (hn : (l.map (fun x : Order => x.id)).Nodup) (hm : o ∈ l) :
    findOrder l o.id = some o := by
  induction l with
  | nil => simp at hm
  | cons a t ih =>
    rw [List.map_cons, List.nodup_cons] at hn
    rcases List.mem_cons.mp hm with rfl | hmem
    · simp [findOrder]
    · have hne : a.id ≠ o.id := by
        intro hc
        exact hn.1 (by rw [hc]; exact List.mem_map.mpr ⟨o, hmem, rfl⟩)
      simp [findOrder, hne]
      exact ih hn.2 hmem

theorem length_filter_setOrder_le_add (l : List Order) (o : Order) (p : Order → Bool) :
    ((setOrder l o).filter p).length ≤ (l.filter p).length + (if p o then 1 else 0) := by
  induction l with
  | nil =>
    by_cases hp : p o <;> simp [setOrder, List.filter, hp]
  | cons a t ih =>
    by_cases ha : a.id = o.id
    · by_cases hp : p o <;> by_cases hpa : p a <;>
        simp [setOrder, ha, List.filter, hp, hpa]
    · by_cases hpa : p a <;>
        simp [setOrder, ha, List.filter, hpa] <;> omega

theorem length_filter_setOrder_of_found {l : List Order} {oid : Nat} {x : Order}
    (o : Order) (p : Order → Bool)
    (hf : findOrder l oid = some x) (hid : o.id = oid) (hp : p o = p x) :
    ((setOrder l o).filter p).length = (l.filter p).length := by
  induction l with
  | nil => simp [findOrder] at hf
  | cons a t ih =>
    by_cases ha : a.id = oid
    · simp only [findOrder, if_pos ha, Option.some.injEq] at hf
      have hao : a.id = o.id := by rw [ha, hid]
      have hset : setOrder (a :: t) o = o :: t := by
        rw [setOrder, if_pos hao]
      rw [hset]
      have hpoa : p o = p a := by rw [hp, hf]
      cases hpa : p a with
      | false =>
        have hpo : p o = false := by rw [hpoa, hpa]
        simp [List.filter, hpo, hpa]
      | true =>
        have hpo : p o = true := by rw [hpoa, hpa]
        simp [List.filter, hpo, hpa]
    · simp only [findOrder, if_neg ha] at hf
      have hao : ¬ a.id = o.id := by rw [hid]; exact ha
      have hset : setOrder (a :: t) o = a :: setOrder t o := by
        rw [setOrder, if_neg hao]
      rw [hset]
      cases hpa : p a with
      | false => simp [List.filter, hpa, ih hf]
      | true => simp [List.filter, hpa, ih hf]

theorem mem_insertLe {α : Type} (le : α → α → Bool) (a x : α) (l : List α) :
    x ∈ insertLe le a l ↔ x = a ∨ x ∈ l := by
  induction l with
  | nil => simp [insertLe]
  | cons b t ih =>
    by_cases hb : le a b
    · simp [insertLe, hb, List.mem_cons]
    · simp [insertLe, hb, List.mem_cons, ih]
      tauto

theorem mem_sortLe {α : Type} (le : α → α → Bool) (x : α) (l : List α) :
    x ∈ sortLe le l ↔ x ∈ l := by
  induction l with
  | nil => simp [sortLe]
  | cons b t ih =>
    rw [sortLe, mem_insertLe, ih, List.mem_cons]

theorem pairwise_insertLe {α : Type} {le : α → α → Bool}
    (htot : ∀ u v, le u v = true ∨ le v u = true)
    (htrans : ∀ u v w, le u v = true → le v w = true → le u w = true)
    (a : α) {l : List α} (h : List.Pairwise (fun u v => le u v = true) l) :
    List.Pairwise (fun u v => le u v = true) (insertLe le a l) := by
  induction l with
  | nil => simp [insertLe]
  | cons b t ih =>
    rw [List.pairwise_cons] at h
    by_cases hb : le a b
    · rw [insertLe]
      simp only [hb, if_true]
      refine List.Pairwise.cons ?_ (List.Pairwise.cons h.1 h.2)
      intro x hx
      rcases List.mem_cons.mp hx with rfl | hxt
      · exact hb
      · exact htrans a b x hb (h.1 x hxt)
    · rw [insertLe]
      simp only [hb, if_false]
      refine List.Pairwise.cons ?_ (ih h.2)
      intro x hx
      rcases (mem_insertLe le a x t).mp hx with hax | hxt
      · rw [hax]
        rcases htot a b with hab | hba
        · exact absurd hab hb
        · exact hba
      · exact h.1 x hxt

theorem pairwise_sortLe {α : Type} {le : α → α → Bool}
    (htot : ∀ u v, le u v = true ∨ le v u = true)
    (htrans : ∀ u v w, le u v = true → le v w = true → le u w = true)
    (l : List α) : List.Pairwise (fun u v => le u v = true) (sortLe le l) := by
  induction l with
  | nil => exact List.Pairwise.nil
  | cons b t ih => exact pairwise_insertLe htot htrans b ih

theorem applyDeliveryDetails_fields (o : Order) (d : DeliveryDetails) :
    (applyDeliveryDetails o d).id = o.id ∧
    (applyDeliveryDetails o d).customer_id = o.customer_id ∧
    (applyDeliveryDetails o d).status = o.status ∧
    (applyDeliveryDetails o d).pickup_location = o.pickup_location ∧
    (applyDeliveryDetails o d).total_amount = o.total_amount ∧
    (applyDeliveryDetails o d).created_at = o.created_at ∧
    (applyDeliveryDetails o d).updated_at = o.updated_at := by
  rcases d with ⟨ds, sec, sr, sn⟩
  cases ds <;> cases sec <;> cases sr <;> cases sn <;>
    simp only [applyDeliveryDetails] <;> try split_ifs
  all_goals simp

theorem updOrder_fields (o : Order) (st : Status) (loc : Option Location)
    (dd : Option DeliveryDetails) (now : Nat) :
    (updOrder o st loc dd now).id = o.id ∧
    (updOrder o st loc dd now).customer_id = o.customer_id ∧
    (updOrder o st loc dd now).status = st ∧
    (updOrder o st loc dd now).total_amount = o.total_amount ∧
    (updOrder o st loc dd now).created_at = o.created_at ∧
    (updOrder o st loc dd now).updated_at = now := by
  cases loc with
  | none =>
    cases dd with
    | none => simp [updOrder]
    | some d => simp [updOrder]
  | some l =>
    cases dd with
    | none => simp [updOrder]
    | some d =>
      by_cases hl : l = Location.delivery
      · subst hl
        have h := applyDeliveryDetails_fields
          { o with status := st, updated_at := now, pickup_location := some Location.delivery } d
        simp only [updOrder]
        simp at h ⊢
        tauto
      · have hne : ¬ ((some l : Option Location) = some Location.delivery) := by
          simpa using hl
        simp [updOrder, hne]

theorem updOrder_pickup_some (o : Order) (st : Status) {loc : Option Location}
    {l : Location} (hl : loc = some l)
    (dd : Option DeliveryDetails) (now : Nat) :
    (updOrder o st loc dd now).pickup_location = some l := by
  subst hl
  cases dd with
  | none => simp [updOrder]
  | some d =>
    by_cases hd : l = Location.delivery
    · subst hd
      have h := applyDeliveryDetails_fields
        { o with status := st, updated_at := now, pickup_location := some Location.delivery } d
      simp only [updOrder]
      simp at h ⊢
      tauto
    · have hne : ¬ ((some l : Option Location) = some Location.delivery) := by
        simpa using hd
      simp [updOrder, hne]

theorem updateOrderStatus_none {s : Store} {oid : Nat}
    (h : getOrder s oid = none) (st : Status) (loc : Option Location)
    (dd : Option DeliveryDetails) (now : Nat) :
    updateOrderStatus s oid st loc dd now = (false, s) := by
  unfold updateOrderStatus
  rw [h]

theorem updateOrderStatus_found {s : Store} {oid : Nat} {o : Order}
    (h : getOrder s oid = some o) (st : Status) (loc : Option Location)
    (dd : Option DeliveryDetails) (now : Nat) :
    updateOrderStatus s oid st loc dd now =
      (true, { s with orders := setOrder s.orders (updOrder o st loc dd now) }) := by
  unfold updateOrderStatus
  rw [h]

theorem atomicStatusUpdate_none {s : Store} {oid : Nat}
    (h : getOrder s oid = none) (exp nw : Status) (now : Nat) :
    atomicStatusUpdate s oid exp nw now = (false, s) := by
  unfold atomicStatusUpdate
  rw [h]

theorem atomicStatusUpdate_bad {s : Store} {oid : Nat} {o : Order}
    (h : getOrder s oid = some o) {exp : Status} (hs : o.status ≠ exp)
    (nw : Status) (now : Nat) :
    atomicStatusUpdate s oid exp nw now = (false, s) := by
  unfold atomicStatusUpdate
  rw [h]
  simp [hs]

theorem atomicStatusUpdate_good {s : Store} {oid : Nat} {o : Order}
    (h : getOrder s oid = some o) {exp : Status} (hs : o.status = exp)
    (nw : Status) (now : Nat) :
    atomicStatusUpdate s oid exp nw now =
      (true, { s with orders := setOrder s.orders { o with status := nw, updated_at := now } }) := by
  unfold atomicStatusUpdate
  rw [h]
  simp [hs]

theorem claimSeq_stuck {s : Store} {oid : Nat} {o : Order}
    (h : getOrder s oid = some o) (hs : o.status ≠ Status.pending) (now : Nat) :
    ∀ n, claimSeq s oid now n = (List.replicate n false, s) := by
  intro n
  induction n with
  | zero => simp [claimSeq]
  | succ k ih =>
    rw [claimSeq, atomicStatusUpdate_bad h hs]
    simp [ih, List.replicate_succ]

/-- A fixed store holding one `pending` order (id 1, customer 7, two units of
product 1 at 150 at the left counter), used to instantiate hypotheses of the
claim theorems. -/
def onePendingStore : Store :=
  { orders := [⟨1, 7, Status.pending, some Location.left_buffer, 300, none, none, none, none, 10, 10⟩]
    orderItems := [(1, [⟨1, 1, 1, 2, 150⟩])]
    products := initialProducts
    nextOrderId := 2
    nextOrderItemId := 2 }

/-- The single order of `onePendingStore`. -/
def onePendingOrder : Order :=
  ⟨1, 7, Status.pending, some Location.left_buffer, 300, none, none, none, none, 10, 10⟩

/-- C1: `atomicStatusUpdate(orderId, expected, new)` reports success exactly
when the order exists and its current status equals `expected`; on success the
status becomes `new` (other orders untouched), on failure the store is left
completely unchanged; and in a sequence of `claim` calls
(`pending` → `preparing`) against one pending order, exactly the first call
succeeds, every later call reports failure, and the final status is
`preparing`. -/
theorem atomicStatusUpdate_claim_semantics :
    (∀ s oid exp nw now,
      ((atomicStatusUpdate s oid exp nw now).1 = true ↔
        ∃ o, getOrder s oid = some o ∧ o.status = exp))
    ∧ (∀ s oid exp nw now,
        (atomicStatusUpdate s oid exp nw now).1 = false →
        (atomicStatusUpdate s oid exp nw now).2 = s)
    ∧ (∀ s oid exp nw now o, getOrder s oid = some o → o.status = exp →
        getOrder (atomicStatusUpdate s oid exp nw now).2 oid =
          some { o with status := nw, updated_at := now }
        ∧ ∀ j, j ≠ oid → getOrder (atomicStatusUpdate s oid exp nw now).2 j = getOrder s j)
    ∧ (∀ s oid now n o, getOrder s oid = some o → o.status = Status.pending →
        (claimSeq s oid now (n + 1)).1 = true :: List.replicate n false
        ∧ ∃ o2, getOrder (claimSeq s oid now (n + 1)).2 oid = some o2
            ∧ o2.status = Status.preparing) := by
  refine ⟨?_, ?_, ?_, ?_⟩
  · intro s oid exp nw now
    constructor
    · intro hsucc
      cases hg : getOrder s oid with
      | none =>
        rw [atomicStatusUpdate_none hg] at hsucc
        simp at hsucc
      | some o =>
        by_cases hs : o.status = exp
        · exact ⟨o, rfl, hs⟩
        · rw [atomicStatusUpdate_bad hg hs] at hsucc
          simp at hsucc
    · rintro ⟨o, hg, hs⟩
      rw [atomicStatusUpdate_good hg hs]
  · intro s oid exp nw now hfail
    cases hg : getOrder s oid with
    | none => rw [atomicStatusUpdate_none hg]
    | some o =>
      by_cases hs : o.status = exp
      · rw [atomicStatusUpdate_good hg hs] at hfail
        simp at hfail
      · rw [atomicStatusUpdate_bad hg hs]
  · intro s oid exp nw now o hg hs
    rw [atomicStatusUpdate_good hg hs]
    have hid : o.id = oid := findOrder_some_id hg
    constructor
    · show findOrder (setOrder s.orders { o with status := nw, updated_at := now }) oid = _
      have := findOrder_setOrder_self s.orders { o with status := nw, updated_at := now }
      simpa [hid] using this
    · intro j hj
      show findOrder (setOrder s.orders { o with status := nw, updated_at := now }) j =
        findOrder s.orders j
      exact findOrder_setOrder_ne s.orders _ (by simpa [hid] using hj)
  · intro s oid now n o hg hs
    rw [claimSeq, atomicStatusUpdate_good hg hs]
    have hid : o.id = oid := findOrder_some_id hg
    set o1 : Order := { o with status := Status.preparing, updated_at := now } with ho1
    set s1 : Store := { s with orders := setOrder s.orders o1 } with hs1
    have hg1 : getOrder s1 oid = some o1 := by
      show findOrder (setOrder s.orders o1) oid = some o1
      have := findOrder_setOrder_self s.orders o1
      simpa [ho1, hid] using this
    have hstuck := claimSeq_stuck hg1 (by simp [ho1]) now n
    simp only [hstuck]
    exact ⟨trivial, o1, hg1, rfl⟩

/-- Witness for C1: three successive claims on the concrete pending order of
`onePendingStore` yield one success followed by failures, ending `preparing`. -/
theorem atomicStatusUpdate_claim_semantics_witness :
    (claimSeq onePendingStore 1 11 (2 + 1)).1 = true :: List.replicate 2 false
    ∧ ∃ o2, getOrder (claimSeq onePendingStore 1 11 (2 + 1)).2 1 = some o2
        ∧ o2.status = Status.preparing :=
  atomicStatusUpdate_claim_semantics.2.2.2 onePendingStore 1 11 2 onePendingOrder
    (by decide) (by decide)

theorem updateOrderTotal_spec (s : Store) (oid now : Nat) :
    ∀ o, getOrder (updateOrderTotal s oid now) oid = some o →
      o.total_amount = itemsTotal (getItems (updateOrderTotal s oid now) oid) := by
  cases hg : getOrder s oid with
  | none =>
    have hstep : updateOrderTotal s oid now = s := by
      unfold updateOrderTotal
      rw [hg]
    intro o ho
    rw [hstep] at ho ⊢
    rw [hg] at ho
    cases ho
  | some x =>
    have hstep : updateOrderTotal s oid now =
        { s with orders := setOrder s.orders { x with total_amount := itemsTotal (getItems s oid), updated_at := now } } := by
      unfold updateOrderTotal
      rw [hg]
    intro o ho
    have hid : x.id = oid := findOrder_some_id hg
    have hfind : getOrder (updateOrderTotal s oid now) oid =
        some { x with total_amount := itemsTotal (getItems s oid), updated_at := now } := by
      rw [hstep]
      show findOrder (setOrder s.orders _) oid = _
      have := findOrder_setOrder_self s.orders
        { x with total_amount := itemsTotal (getItems s oid), updated_at := now }
      simpa [hid] using this
    rw [hfind] at ho
    cases ho
    rw [hstep]
    rfl

theorem addItemToOrder_snd_eq (s : Store) (oid pid : Nat) (q price : Int) (now : Nat) :
    ∃ upd : Store, (addItemToOrder s oid pid q price now).2 = updateOrderTotal upd oid now
      ∧ upd.orders = s.orders := by
  cases hb : bumpFirst (getItems s oid) pid q with
  | some items2 =>
    refine ⟨{ s with orderItems := setItems s.orderItems oid items2 }, ?_, rfl⟩
    simp only [addItemToOrder, hb]
  | none =>
    refine ⟨{ s with orderItems := setItems s.orderItems oid (getItems s oid ++ [⟨s.nextOrderItemId, oid, pid, q, price⟩]), nextOrderItemId := s.nextOrderItemId + 1 }, ?_, rfl⟩
    simp only [addItemToOrder, hb]

/-- The store after creating customer 7's cart (order id 1) at time 0. -/
def demoCartStore : Store :=
  (getOrCreateCartOrder Store.init 7 0).2

/-- The cart order of `demoCartStore` after two units of product 1 at price
150 are added at time 1. -/
def demoCartOrderAfter : Order :=
  ⟨1, 7, Status.cart, none, 300, none, none, none, none, 0, 1⟩

/-- C2: after each line-item mutation — `addItemToOrder` from the source, and
the spec-modelled `updateItemQuantity`, `removeItemFromOrder` and `clearCart`
of the storage port — the mutated order's `total_amount` equals the sum of
`quantity × price_at_time` over its live line items, because each operation
ends by recomputing the total from the item list. -/
theorem order_total_invariant :
    (∀ (s : Store) (oid pid : Nat) (q price : Int) (now : Nat) (o : Order),
       getOrder (addItemToOrder s oid pid q price now).2 oid = some o →
       o.total_amount = itemsTotal (getItems (addItemToOrder s oid pid q price now).2 oid))
    ∧ (∀ (s : Store) (oid pid : Nat) (q : Int) (now : Nat) (o : Order),
        (updateItemQuantity s oid pid q now).1 = true →
        getOrder (updateItemQuantity s oid pid q now).2 oid = some o →
        o.total_amount = itemsTotal (getItems (updateItemQuantity s oid pid q now).2 oid))
    ∧ (∀ (s : Store) (oid pid now : Nat) (o : Order),
        getOrder (removeItemFromOrder s oid pid now).2 oid = some o →
        o.total_amount = itemsTotal (getItems (removeItemFromOrder s oid pid now).2 oid))
    ∧ (∀ (s : Store) (oid now : Nat) (o : Order),
        getOrder (clearCart s oid now).2 oid = some o →
        o.total_amount = itemsTotal (getItems (clearCart s oid now).2 oid)) := by
  refine ⟨?_, ?_, ?_, ?_⟩
  · intro s oid pid q price now o ho
    rcases addItemToOrder_snd_eq s oid pid q price now with ⟨upd, heq, _⟩
    rw [heq] at ho ⊢
    exact updateOrderTotal_spec upd oid now o ho
  · intro s oid pid q now o hsucc ho
    by_cases hmem : (getItems s oid).any (fun it => it.product_id == pid)
    · have heq : (updateItemQuantity s oid pid q now).2 =
          updateOrderTotal { s with orderItems := setItems s.orderItems oid ((getItems s oid).map (fun it => if it.product_id = pid then { it with quantity := q } else it)) } oid now := by
        unfold updateItemQuantity
        rw [if_pos hmem]
      rw [heq] at ho ⊢
      exact updateOrderTotal_spec _ oid now o ho
    · have : (updateItemQuantity s oid pid q now).1 = false := by
        unfold updateItemQuantity
        rw [if_neg hmem]
      rw [this] at hsucc
      cases hsucc
  · intro s oid pid now o ho
    exact updateOrderTotal_spec _ oid now o ho
  · intro s oid now o ho
    exact updateOrderTotal_spec _ oid now o ho

/-- Witness for C2: on the concrete cart of `demoCartStore`, after adding two
units of product 1 at 150 the stored total matches the item sum (300). -/
theorem order_total_invariant_witness :
    getOrder (addItemToOrder demoCartStore 1 1 2 150 1).2 1 = some demoCartOrderAfter
    ∧ demoCartOrderAfter.total_amount =
        itemsTotal (getItems (addItemToOrder demoCartStore 1 1 2 150 1).2 1) :=
  ⟨by decide, order_total_invariant.1 demoCartStore 1 1 2 150 1 demoCartOrderAfter (by decide)⟩

theorem getItems_updateOrderTotal (s : Store) (oid now j : Nat) :
    getItems (updateOrderTotal s oid now) j = getItems s j := by
  unfold updateOrderTotal
  cases getOrder s oid <;> rfl

theorem bumpFirst_none_iff (items : List OrderItem) (pid : Nat) (q : Int) :
    bumpFirst items pid q = none ↔ ∀ it ∈ items, it.product_id ≠ pid := by
  induction items with
  | nil => simp [bumpFirst]
  | cons a rest ih =>
    rw [bumpFirst]
    by_cases hp : a.product_id = pid
    · rw [if_pos hp]
      constructor
      · intro h
        cases h
      · intro h
        exact absurd hp (h a (List.mem_cons_self a rest))
    · rw [if_neg hp]
      constructor
      · intro h it hit
        rcases List.mem_cons.mp hit with rfl | hmem
        · exact hp
        · have hrest : bumpFirst rest pid q = none := by
            cases hb : bumpFirst rest pid q with
            | none => rfl
            | some r =>
              rw [hb] at h
              simp at h
          exact (ih.mp hrest) it hmem
      · intro h
        have hrest : bumpFirst rest pid q = none :=
          ih.mpr (fun it hit => h it (List.mem_cons_of_mem a hit))
        rw [hrest]
        rfl

theorem bumpFirst_some_map {items : List OrderItem} {pid : Nat} {q : Int}
    {items2 : List OrderItem} (h : bumpFirst items pid q = some items2) :
    items2.map (fun it => it.product_id) = items.map (fun it => it.product_id)
    ∧ items2.length = items.length := by
  induction items generalizing items2 with
  | nil => simp [bumpFirst] at h
  | cons a rest ih =>
    rw [bumpFirst] at h
    by_cases hp : a.product_id = pid
    · rw [if_pos hp] at h
      cases h
      simp
    · rw [if_neg hp] at h
      cases hb : bumpFirst rest pid q with
      | none =>
        rw [hb] at h
        simp at h
      | some r =>
        rw [hb] at h
        simp only [Option.map, Option.some.injEq] at h
        rcases ih hb with ⟨hm, hl⟩
        rw [← h]
        simp [hm, hl]

theorem addItemToOrder_items_bump {s : Store} {oid pid : Nat} {q : Int}
    (price : Int) (now : Nat) {items2 : List OrderItem}
    (h : bumpFirst (getItems s oid) pid q = some items2) :
    getItems (addItemToOrder s oid pid q price now).2 oid = items2 := by
  simp only [addItemToOrder, h]
  rw [getItems_updateOrderTotal]
  show getItemsL (setItems s.orderItems oid items2) oid = items2
  exact getItemsL_setItems_self _ _ _

theorem addItemToOrder_items_new {s : Store} {oid pid : Nat} {q : Int}
    (price : Int) (now : Nat)
    (h : bumpFirst (getItems s oid) pid q = none) :
    getItems (addItemToOrder s oid pid q price now).2 oid =
      getItems s oid ++ [⟨s.nextOrderItemId, oid, pid, q, price⟩] := by
  simp only [addItemToOrder, h]
  rw [getItems_updateOrderTotal]
  show getItemsL (setItems s.orderItems oid _) oid = _
  exact getItemsL_setItems_self _ _ _

/-- The store of `demoCartStore` after adding product 1 (price 150) once with
quantity 1 and once more with quantity 2. -/
def demoTwoAddStore : Store :=
  (addItemToOrder (addItemToOrder demoCartStore 1 1 1 150 1).2 1 1 2 150 2).2

/-- C5: adding a product that already has a line item on the order bumps that
line item's quantity instead of creating a second row, so pairwise-distinct
product ids on an order's items are preserved by `addItemToOrder`; concretely,
adding product 1 (price 150) with quantity 1 and then again with quantity 2
leaves a single line item with quantity 3 and an order total of 450. -/
theorem addItemToOrder_merges_duplicates :
    (∀ (s : Store) (oid pid : Nat) (q price : Int) (now : Nat),
       ((getItems s oid).map (fun it => it.product_id)).Nodup →
       ((getItems (addItemToOrder s oid pid q price now).2 oid).map
         (fun it => it.product_id)).Nodup)
    ∧ (∀ (s : Store) (oid pid : Nat) (q price : Int) (now : Nat),
        (∃ it ∈ getItems s oid, it.product_id = pid) →
        (getItems (addItemToOrder s oid pid q price now).2 oid).map (fun it => it.product_id) =
          (getItems s oid).map (fun it => it.product_id))
    ∧ getItems demoTwoAddStore 1 = [⟨1, 1, 1, 3, 150⟩]
    ∧ (∃ o, getOrder demoTwoAddStore 1 = some o ∧ o.total_amount = 450) := by
  refine ⟨?_, ?_, by decide, by decide⟩
  · intro s oid pid q price now hnd
    cases hb : bumpFirst (getItems s oid) pid q with
    | some items2 =>
      rw [addItemToOrder_items_bump price now hb]
      rw [(bumpFirst_some_map hb).1]
      exact hnd
    | none =>
      rw [addItemToOrder_items_new price now hb]
      rw [List.map_append]
      rw [List.nodup_append]
      refine ⟨hnd, by simp, ?_⟩
      intro a ha hb2
      simp at hb2
      rcases List.mem_map.mp ha with ⟨it, hit, hpid⟩
      exact ((bumpFirst_none_iff _ _ q).mp hb it hit) (by rw [hpid, hb2])
  · intro s oid pid q price now hex
    cases hb : bumpFirst (getItems s oid) pid q with
    | some items2 =>
      rw [addItemToOrder_items_bump price now hb]
      exact (bumpFirst_some_map hb).1
    | none =>
      rcases hex with ⟨it, hit, hpid⟩
      exact absurd hpid ((bumpFirst_none_iff _ _ q).mp hb it hit)

/-- Witness for C5: the distinct-product invariant instantiated on the
concrete two-add store. -/
theorem addItemToOrder_merges_duplicates_witness :
    ((getItems demoTwoAddStore 1).map (fun it => it.product_id)).Nodup ∧
    ((getItems (addItemToOrder demoTwoAddStore 1 1 5 150 3).2 1).map
      (fun it => it.product_id)).Nodup :=
  ⟨by decide, addItemToOrder_merges_duplicates.1 demoTwoAddStore 1 1 5 150 3 (by decide)⟩

/-- C6: `addItemToOrder` called with an order id that references no order
(999 on the freshly constructed store) reports success and records an orphan
line item under that id, instead of failing with no line items: the guard the
spec requires (and the schema's `order_items.order_id REFERENCES orders(id)`
constraint enforces on the durable backend) is absent from the in-memory
implementation. -/
theorem addItemToOrder_missing_order_behaviour :
    (addItemToOrder Store.init 999 1 1 150 5).1 = true
    ∧ getOrder (addItemToOrder Store.init 999 1 1 150 5).2 999 = none
    ∧ getItems (addItemToOrder Store.init 999 1 1 150 5).2 999 = [⟨1, 999, 1, 1, 150⟩] := by
  decide

theorem getOrder_set_self (s : Store) (o : Order) {oid : Nat} (h : o.id = oid) :
    getOrder { s with orders := setOrder s.orders o } oid = some o := by
  show findOrder (setOrder s.orders o) oid = some o
  have := findOrder_setOrder_self s.orders o
  rwa [h] at this

/-- C9: the `confirm_cancel` handler cancels exactly the orders whose current
status is `pending` or `preparing` (they move to `cancelled`); for an order in
any other status — in particular the terminal `completed` and `cancelled` —
both compare-and-swap attempts fail and the store is returned unchanged, so
cancellation never moves an order out of a terminal status. A missing order id
also fails without a change. -/
theorem cancel_only_from_pending_or_preparing :
    (∀ (s : Store) (oid now : Nat) (o : Order), getOrder s oid = some o →
       ((o.status = Status.pending ∨ o.status = Status.preparing) →
          (confirmCancel s oid now).1 = true
          ∧ ∃ o2, getOrder (confirmCancel s oid now).2 oid = some o2
              ∧ o2.status = Status.cancelled)
       ∧ (o.status ≠ Status.pending → o.status ≠ Status.preparing →
          confirmCancel s oid now = (false, s)))
    ∧ (∀ (s : Store) (oid now : Nat), getOrder s oid = none →
        confirmCancel s oid now = (false, s)) := by
  constructor
  · intro s oid now o hg
    have hid : o.id = oid := findOrder_some_id hg
    constructor
    · intro hstat
      rcases hstat with hp | hp
      · unfold confirmCancel
        rw [atomicStatusUpdate_good hg hp]
        simp only [if_true]
        refine ⟨by simp, { o with status := Status.cancelled, updated_at := now }, ?_, rfl⟩
        exact getOrder_set_self s _ hid
      · have hnp : o.status ≠ Status.pending := by rw [hp]; intro hc; cases hc
        unfold confirmCancel
        rw [atomicStatusUpdate_bad hg hnp]
        simp only [Bool.false_eq_true, if_false]
        rw [atomicStatusUpdate_good hg hp]
        refine ⟨by simp, { o with status := Status.cancelled, updated_at := now }, ?_, rfl⟩
        exact getOrder_set_self s _ hid
    · intro hnp hnq
      unfold confirmCancel
      rw [atomicStatusUpdate_bad hg hnp]
      simp only [Bool.false_eq_true, if_false]
      rw [atomicStatusUpdate_bad hg hnq]
  · intro s oid now hg
    unfold confirmCancel
    rw [atomicStatusUpdate_none hg]
    simp only [Bool.false_eq_true, if_false]
    rw [atomicStatusUpdate_none hg]

/-- Witness for C9: cancelling the concrete pending order of
`onePendingStore` succeeds and ends in status `cancelled`. -/
theorem cancel_only_from_pending_or_preparing_witness :
    (confirmCancel onePendingStore 1 12).1 = true
    ∧ ∃ o2, getOrder (confirmCancel onePendingStore 1 12).2 1 = some o2
        ∧ o2.status = Status.cancelled :=
  (cancel_only_from_pending_or_preparing.1 onePendingStore 1 12 onePendingOrder
    (by decide)).1 (Or.inl (by decide))

/-- C10: `getOrdersByCustomer` returns exactly the customer's orders whose
status is not `cart` (the open basket is excluded from history), sorted
newest-first by creation time — the mirror image of the oldest-first order
used by the seller queries. -/
theorem getOrdersByCustomer_spec :
    ∀ (s : Store) (c : Nat),
      (∀ o : Order, o ∈ getOrdersByCustomer s c ↔
        o ∈ s.orders ∧ o.customer_id = c ∧ o.status ≠ Status.cart)
      ∧ List.Pairwise (fun a b : Order => b.created_at ≤ a.created_at)
          (getOrdersByCustomer s c) := by
  intro s c
  constructor
  · intro o
    unfold getOrdersByCustomer
    rw [mem_sortLe, List.mem_filter]
    simp
  · unfold getOrdersByCustomer
    refine List.Pairwise.imp ?_ (pairwise_sortLe ?_ ?_ _)
    · intro a b hd
      exact of_decide_eq_true hd
    · intro u v
      rcases le_total v.created_at u.created_at with h | h
      · exact Or.inl (decide_eq_true h)
      · exact Or.inr (decide_eq_true h)
    · intro u v w h1 h2
      exact decide_eq_true (le_trans (of_decide_eq_true h2) (of_decide_eq_true h1))

theorem getOrderWithItems_of_mem {s : Store} (hn : NodupIds s) {o : Order}
    (hm : o ∈ s.orders) :
    getOrderWithItems s o.id =
      some ⟨o, (getItems s o.id).map (fun it => ⟨it, getProductById s it.product_id⟩)⟩ := by
  unfold getOrderWithItems
  rw [show getOrder s o.id = some o from findOrder_eq_self_of_nodup hn hm]

/-- A store with one pending order at each counter, to instantiate the seller
query theorems. -/
def demoSellerStore : Store :=
  { orders := [⟨1, 7, Status.pending, some Location.left_buffer, 300, none, none, none, none, 10, 11⟩,
               ⟨2, 8, Status.pending, some Location.right_buffer, 150, none, none, none, none, 12, 13⟩]
    orderItems := [(1, [⟨1, 1, 1, 2, 150⟩]), (2, [⟨2, 2, 2, 1, 150⟩])]
    products := initialProducts
    nextOrderId := 3
    nextOrderItemId := 3 }

/-- C8: for each seller role the fulfillment queries return exactly the
orders at that role's counter (`seller_left` ↔ `left_buffer`, `seller_right`
↔ `right_buffer`) with the requested status — `pending` for the new-orders
query, `preparing` or `ready_for_pickup` for the active query — each joined
with its line items, sorted oldest-first by creation time; consequently an
order checked out to one counter never appears in the other counter's
queries. -/
theorem fulfillment_router_spec :
    ∀ (s : Store) (role : SellerRole), NodupIds s →
      (∀ ow : OrderWithItems,
        ow ∈ getPendingOrdersForSeller s role ↔
          ow.order ∈ s.orders
          ∧ ow.order.pickup_location = some (roleLocation role)
          ∧ ow.order.status = Status.pending
          ∧ ow.order_items = (getItems s ow.order.id).map
              (fun it => ⟨it, getProductById s it.product_id⟩))
      ∧ List.Pairwise (fun a b : OrderWithItems => a.order.created_at ≤ b.order.created_at)
          (getPendingOrdersForSeller s role)
      ∧ (∀ ow : OrderWithItems,
          ow ∈ getActiveOrdersForSeller s role ↔
            ow.order ∈ s.orders
            ∧ ow.order.pickup_location = some (roleLocation role)
            ∧ (ow.order.status = Status.preparing ∨ ow.order.status = Status.ready_for_pickup)
            ∧ ow.order_items = (getItems s ow.order.id).map
                (fun it => ⟨it, getProductById s it.product_id⟩))
      ∧ List.Pairwise (fun a b : OrderWithItems => a.order.created_at ≤ b.order.created_at)
          (getActiveOrdersForSeller s role) := by
  intro s role hn
  refine ⟨?_, ?_, ?_, ?_⟩
  · intro ow
    unfold getPendingOrdersForSeller
    rw [mem_sortLe, List.mem_filterMap]
    constructor
    · rintro ⟨o, hof, hj⟩
      rw [List.mem_filter] at hof
      rcases hof with ⟨ho, hp⟩
      simp only [decide_eq_true_eq] at hp
      rw [getOrderWithItems_of_mem hn ho] at hj
      cases hj
      exact ⟨ho, hp.1, hp.2, rfl⟩
    · rcases ow with ⟨oo, oi⟩
      rintro ⟨ho, hl, hs2, hitems⟩
      refine ⟨oo, ?_, ?_⟩
      · rw [List.mem_filter]
        exact ⟨ho, by simp_all⟩
      · rw [getOrderWithItems_of_mem hn ho]
        simp_all
  · unfold getPendingOrdersForSeller
    refine List.Pairwise.imp ?_ (pairwise_sortLe ?_ ?_ _)
    · intro a b hd
      exact of_decide_eq_true hd
    · intro u v
      rcases le_total u.order.created_at v.order.created_at with h | h
      · exact Or.inl (decide_eq_true h)
      · exact Or.inr (decide_eq_true h)
    · intro u v w h1 h2
      exact decide_eq_true (le_trans (of_decide_eq_true h1) (of_decide_eq_true h2))
  · intro ow
    unfold getActiveOrdersForSeller
    rw [mem_sortLe, List.mem_filterMap]
    constructor
    · rintro ⟨o, hof, hj⟩
      rw [List.mem_filter] at hof
      rcases hof with ⟨ho, hp⟩
      simp only [decide_eq_true_eq] at hp
      rw [getOrderWithItems_of_mem hn ho] at hj
      cases hj
      exact ⟨ho, hp.1, hp.2, rfl⟩
    · rcases ow with ⟨oo, oi⟩
      rintro ⟨ho, hl, hs2, hitems⟩
      refine ⟨oo, ?_, ?_⟩
      · rw [List.mem_filter]
        exact ⟨ho, by simp_all⟩
      · rw [getOrderWithItems_of_mem hn ho]
        simp_all
  · unfold getActiveOrdersForSeller
    refine List.Pairwise.imp ?_ (pairwise_sortLe ?_ ?_ _)
    · intro a b hd
      exact of_decide_eq_true hd
    · intro u v
      rcases le_total u.order.created_at v.order.created_at with h | h
      · exact Or.inl (decide_eq_true h)
      · exact Or.inr (decide_eq_true h)
    · intro u v w h1 h2
      exact decide_eq_true (le_trans (of_decide_eq_true h1) (of_decide_eq_true h2))

/-- Witness for C8: `demoSellerStore` has well-formed ids, and the left
counter's new-orders query is sorted oldest-first. -/
theorem fulfillment_router_spec_witness :
    NodupIds demoSellerStore
    ∧ List.Pairwise (fun a b : OrderWithItems => a.order.created_at ≤ b.order.created_at)
        (getPendingOrdersForSeller demoSellerStore SellerRole.seller_left) :=
  ⟨by decide, (fulfillment_router_spec demoSellerStore SellerRole.seller_left (by decide)).2.1⟩

theorem cartCount_set_eq {l : List Order} {oid : Nat} {x : Order} (o : Order)
    (hf : findOrder l oid = some x) (hid : o.id = oid)
    (hcust : o.customer_id = x.customer_id) (hstat : o.status = x.status) (c : Nat) :
    cartCount (setOrder l o) c = cartCount l c := by
  unfold cartCount
  exact length_filter_setOrder_of_found o _ hf hid (by rw [hcust, hstat])

theorem cartCount_set_le {l : List Order} (o : Order) (c : Nat)
    (hno : ¬ (o.customer_id = c ∧ o.status = Status.cart)) :
    cartCount (setOrder l o) c ≤ cartCount l c := by
  unfold cartCount
  have h := length_filter_setOrder_le_add l o
    (fun o => decide (o.customer_id = c ∧ o.status = Status.cart))
  have hpo : decide (o.customer_id = c ∧ o.status = Status.cart) = false :=
    decide_eq_false hno
  simpa [hpo] using h

theorem cartCount_zero_of_no_cart {l : List Order} {c : Nat}
    (h : findCart l c = none) : cartCount l c = 0 := by
  unfold cartCount
  rw [List.length_eq_zero, List.filter_eq_nil_iff]
  intro o ho
  simp only [decide_eq_true_eq]
  exact findCart_none h o ho

theorem cartCount_updateOrderTotal (s : Store) (oid now c : Nat) :
    cartCount (updateOrderTotal s oid now).orders c = cartCount s.orders c := by
  cases hg : getOrder s oid with
  | none =>
    have hstep : updateOrderTotal s oid now = s := by
      unfold updateOrderTotal
      rw [hg]
    rw [hstep]
  | some x =>
    have hstep : updateOrderTotal s oid now =
        { s with orders := setOrder s.orders { x with total_amount := itemsTotal (getItems s oid), updated_at := now } } := by
      unfold updateOrderTotal
      rw [hg]
    rw [hstep]
    exact cartCount_set_eq { x with total_amount := itemsTotal (getItems s oid), updated_at := now } hg (findOrder_some_id hg : x.id = oid) rfl rfl c

theorem CartInv_updateOrderTotal {s : Store} {oid now : Nat} (h : CartInv s) :
    CartInv (updateOrderTotal s oid now) := by
  intro c
  rw [cartCount_updateOrderTotal]
  exact h c

theorem CartInv_getOrCreateCartOrder {s : Store} (c now : Nat) (h : CartInv s) :
    CartInv (getOrCreateCartOrder s c now).2 := by
  cases hf : findCart s.orders c with
  | some cart =>
    have hstep : getOrCreateCartOrder s c now = (cart, s) := by
      unfold getOrCreateCartOrder
      rw [hf]
    rw [hstep]
    exact h
  | none =>
    have hstep : (getOrCreateCartOrder s c now).2.orders =
        setOrder s.orders ⟨s.nextOrderId, c, Status.cart, none, 0, none, none, none, none, now, now⟩ := by
      unfold getOrCreateCartOrder
      rw [hf]
    intro c2
    show cartCount (getOrCreateCartOrder s c now).2.orders c2 ≤ 1
    rw [hstep]
    by_cases hc : c2 = c
    · subst hc
      have h0 : cartCount s.orders c2 = 0 := cartCount_zero_of_no_cart hf
      have hle := length_filter_setOrder_le_add s.orders
        (⟨s.nextOrderId, c2, Status.cart, none, 0, none, none, none, none, now, now⟩ : Order)
        (fun o => decide (o.customer_id = c2 ∧ o.status = Status.cart))
      unfold cartCount at h0 ⊢
      rw [h0] at hle
      refine le_trans hle ?_
      split_ifs <;> simp
    · have hno : ¬ ((⟨s.nextOrderId, c, Status.cart, none, 0, none, none, none, none, now, now⟩ : Order).customer_id = c2 ∧ (⟨s.nextOrderId, c, Status.cart, none, 0, none, none, none, none, now, now⟩ : Order).status = Status.cart) := by
        rintro ⟨hcc, _⟩
        exact hc hcc.symm
      exact le_trans (cartCount_set_le _ c2 hno) (h c2)

theorem CartInv_updateOrderStatus {s : Store} {oid : Nat} {st : Status}
    (loc : Option Location) (dd : Option DeliveryDetails) (now : Nat)
    (hst : st ≠ Status.cart) (h : CartInv s) :
    CartInv (updateOrderStatus s oid st loc dd now).2 := by
  cases hg : getOrder s oid with
  | none =>
    rw [updateOrderStatus_none hg]
    exact h
  | some o =>
    rw [updateOrderStatus_found hg]
    intro c
    have hfields := updOrder_fields o st loc dd now
    have hno : ¬ ((updOrder o st loc dd now).customer_id = c ∧
        (updOrder o st loc dd now).status = Status.cart) := by
      rintro ⟨_, hcs⟩
      rw [hfields.2.2.1] at hcs
      exact hst hcs
    exact le_trans (cartCount_set_le _ c hno) (h c)

theorem CartInv_atomicStatusUpdate {s : Store} {oid : Nat} {exp nw : Status} {now : Nat}
    (hnw : nw ≠ Status.cart) (h : CartInv s) :
    CartInv (atomicStatusUpdate s oid exp nw now).2 := by
  cases hg : getOrder s oid with
  | none =>
    rw [atomicStatusUpdate_none hg]
    exact h
  | some o =>
    by_cases hs : o.status = exp
    · rw [atomicStatusUpdate_good hg hs]
      intro c
      have hno : ¬ (({ o with status := nw, updated_at := now } : Order).customer_id = c ∧
          ({ o with status := nw, updated_at := now } : Order).status = Status.cart) := by
        rintro ⟨_, hcs⟩
        exact hnw hcs
      exact le_trans (cartCount_set_le _ c hno) (h c)
    · rw [atomicStatusUpdate_bad hg hs]
      exact h

theorem CartInv_addItemToOrder {s : Store} {oid pid : Nat} {q price : Int} {now : Nat}
    (h : CartInv s) : CartInv (addItemToOrder s oid pid q price now).2 := by
  rcases addItemToOrder_snd_eq s oid pid q price now with ⟨upd, heq, hord⟩
  rw [heq]
  apply CartInv_updateOrderTotal
  intro c
  show cartCount upd.orders c ≤ 1
  rw [hord]
  exact h c

theorem CartInv_updateItemQuantity {s : Store} {oid pid : Nat} {q : Int} {now : Nat}
    (h : CartInv s) : CartInv (updateItemQuantity s oid pid q now).2 := by
  by_cases hmem : (getItems s oid).any (fun it => it.product_id == pid)
  · have heq : (updateItemQuantity s oid pid q now).2 =
        updateOrderTotal { s with orderItems := setItems s.orderItems oid ((getItems s oid).map (fun it => if it.product_id = pid then { it with quantity := q } else it)) } oid now := by
      unfold updateItemQuantity
      rw [if_pos hmem]
    rw [heq]
    exact CartInv_updateOrderTotal (fun c => h c)
  · have heq : (updateItemQuantity s oid pid q now).2 = s := by
      unfold updateItemQuantity
      rw [if_neg hmem]
    rw [heq]
    exact h

theorem CartInv_removeItemFromOrder {s : Store} {oid pid now : Nat}
    (h : CartInv s) : CartInv (removeItemFromOrder s oid pid now).2 :=
  CartInv_updateOrderTotal (fun c => h c)

theorem CartInv_clearCart {s : Store} {oid now : Nat}
    (h : CartInv s) : CartInv (clearCart s oid now).2 :=
  CartInv_updateOrderTotal (fun c => h c)

theorem CartInv_updateOrderDeliveryDetails {s : Store} {oid : Nat} {side : Side}
    {sector : Nat} {row seat : String} {now : Nat} (h : CartInv s) :
    CartInv (updateOrderDeliveryDetails s oid side sector row seat now).2 := by
  cases hg : getOrder s oid with
  | none =>
    have hstep : (updateOrderDeliveryDetails s oid side sector row seat now).2 = s := by
      unfold updateOrderDeliveryDetails
      rw [hg]
    rw [hstep]
    exact h
  | some o =>
    have hstep : (updateOrderDeliveryDetails s oid side sector row seat now).2 =
        { s with orders := setOrder s.orders { o with delivery_side := some side, sector := some sector, seat_row := some row, seat_number := some seat, updated_at := now } } := by
      unfold updateOrderDeliveryDetails
      rw [hg]
    rw [hstep]
    intro c
    have heq := cartCount_set_eq { o with delivery_side := some side, sector := some sector, seat_row := some row, seat_number := some seat, updated_at := now } hg (findOrder_some_id hg : o.id = oid) rfl rfl c
    exact le_trans (le_of_eq heq) (h c)

/-- The store after: create a cart for customer 7 (order 1), check it out to
`pending`, create a second cart (order 2), then set order 1's status back to
`cart` through `updateOrderStatus`. -/
def twoCartsStore : Store :=
  (updateOrderStatus
    (getOrCreateCartOrder
      (updateOrderStatus (getOrCreateCartOrder Store.init 7 0).2 1 Status.pending
        (some Location.left_buffer) none 1).2
      7 2).2
    1 Status.cart none none 3).2

/-- C3 counterexample: a sequence of store operations — all of them part of
the store's public surface — ends with customer 7 owning two simultaneous
`cart`-status orders, because `updateOrderStatus` accepts `cart` as the new
status. -/
theorem two_simultaneous_carts : cartCount twoCartsStore.orders 7 = 2 := by
  decide

/-- C3, amended: `getOrCreateCartOrder` returns the existing cart unchanged
or creates exactly one fresh order with status `cart` and zero total, and the
at-most-one-cart-per-account invariant is preserved by every store operation
except a status update whose target status is `cart` (the source of the
counterexample). -/
theorem cart_uniqueness_amended :
    (∀ (s : Store) (c now : Nat) (cart : Order),
       findCart s.orders c = some cart → getOrCreateCartOrder s c now = (cart, s))
    ∧ (∀ (s : Store) (c now : Nat),
        findCart s.orders c = none →
        (getOrCreateCartOrder s c now).1.status = Status.cart
        ∧ (getOrCreateCartOrder s c now).1.total_amount = 0)
    ∧ (∀ (s : Store) (c now : Nat), CartInv s → CartInv (getOrCreateCartOrder s c now).2)
    ∧ (∀ (s : Store) (oid pid : Nat) (q price : Int) (now : Nat),
        CartInv s → CartInv (addItemToOrder s oid pid q price now).2)
    ∧ (∀ (s : Store) (oid pid : Nat) (q : Int) (now : Nat),
        CartInv s → CartInv (updateItemQuantity s oid pid q now).2)
    ∧ (∀ (s : Store) (oid pid now : Nat),
        CartInv s → CartInv (removeItemFromOrder s oid pid now).2)
    ∧ (∀ (s : Store) (oid now : Nat), CartInv s → CartInv (clearCart s oid now).2)
    ∧ (∀ (s : Store) (oid : Nat) (side : Side) (sector : Nat) (row seat : String) (now : Nat),
        CartInv s → CartInv (updateOrderDeliveryDetails s oid side sector row seat now).2)
    ∧ (∀ (s : Store) (oid : Nat) (st : Status) (loc : Option Location)
        (dd : Option DeliveryDetails) (now : Nat),
        st ≠ Status.cart → CartInv s → CartInv (updateOrderStatus s oid st loc dd now).2)
    ∧ (∀ (s : Store) (oid : Nat) (exp nw : Status) (now : Nat),
        nw ≠ Status.cart → CartInv s → CartInv (atomicStatusUpdate s oid exp nw now).2) := by
  refine ⟨?_, ?_, ?_, ?_, ?_, ?_, ?_, ?_, ?_, ?_⟩
  · intro s c now cart hf
    unfold getOrCreateCartOrder
    rw [hf]
  · intro s c now hf
    unfold getOrCreateCartOrder
    rw [hf]
    exact ⟨rfl, rfl⟩
  · exact fun s c now h => CartInv_getOrCreateCartOrder c now h
  · exact fun s oid pid q price now h => CartInv_addItemToOrder h
  · exact fun s oid pid q now h => CartInv_updateItemQuantity h
  · exact fun s oid pid now h => CartInv_removeItemFromOrder h
  · exact fun s oid now h => CartInv_clearCart h
  · exact fun s oid side sector row seat now h => CartInv_updateOrderDeliveryDetails h
  · exact fun s oid st loc dd now hst h => CartInv_updateOrderStatus loc dd now hst h
  · exact fun s oid exp nw now hnw h => CartInv_atomicStatusUpdate hnw h

/-- The cart order created first in `demoCartStore`. -/
def demoCartOrder0 : Order :=
  ⟨1, 7, Status.cart, none, 0, none, none, none, none, 0, 0⟩

/-- Witness for the amended C3: on `demoCartStore` the existing cart is
returned unchanged, and the invariant holds after the call. -/
theorem cart_uniqueness_amended_witness :
    findCart demoCartStore.orders 7 = some demoCartOrder0
    ∧ getOrCreateCartOrder demoCartStore 7 5 = (demoCartOrder0, demoCartStore)
    ∧ CartInv (getOrCreateCartOrder demoCartStore 7 5).2 :=
  ⟨by decide, cart_uniqueness_amended.1 demoCartStore 7 5 demoCartOrder0 (by decide),
   cart_uniqueness_amended.2.2.1 demoCartStore 7 5 (by decide)⟩

theorem findOrder_mem {l : List Order} {oid : Nat} {o : Order}
    (h : findOrder l oid = some o) : o ∈ l := by
  induction l with
  | nil => simp [findOrder] at h
  | cons a t ih =>
    by_cases ha : a.id = oid
    · simp only [findOrder, if_pos ha, Option.some.injEq] at h
      rw [← h]
      exact List.mem_cons_self a t
    · simp only [findOrder, if_neg ha] at h
      exact List.mem_cons_of_mem a (ih h)

theorem getOrCreateCartOrder_existing {s : Store} {uid : Nat} (now : Nat) {cart : Order}
    (hf : findCart s.orders uid = some cart) :
    getOrCreateCartOrder s uid now = (cart, s) := by
  unfold getOrCreateCartOrder
  rw [hf]

theorem getOrCreateCartOrder_fresh {s : Store} {uid : Nat} (now : Nat)
    (hf : findCart s.orders uid = none) :
    getOrCreateCartOrder s uid now =
      (⟨s.nextOrderId, uid, Status.cart, none, 0, none, none, none, none, now, now⟩,
       { s with orders := setOrder s.orders ⟨s.nextOrderId, uid, Status.cart, none, 0, none, none, none, none, now, now⟩, orderItems := setItems s.orderItems s.nextOrderId [], nextOrderId := s.nextOrderId + 1 }) := by
  unfold getOrCreateCartOrder
  rw [hf]

theorem getOrCreateCartOrder_facts (s : Store) (uid now : Nat)
    (hn : NodupIds s) (hfr : FreshIds s) :
    (getOrCreateCartOrder s uid now).1.status = Status.cart
    ∧ getOrder (getOrCreateCartOrder s uid now).2 (getOrCreateCartOrder s uid now).1.id =
        some (getOrCreateCartOrder s uid now).1
    ∧ ∀ (j : Nat) (o : Order), getOrder s j = some o → o.status ≠ Status.cart →
        getOrder (getOrCreateCartOrder s uid now).2 j = some o := by
  cases hf : findCart s.orders uid with
  | some cart =>
    rw [getOrCreateCartOrder_existing now hf]
    have hm := findCart_mem hf
    exact ⟨hm.2.2, findOrder_eq_self_of_nodup hn hm.1, fun j o hg _ => hg⟩
  | none =>
    rw [getOrCreateCartOrder_fresh now hf]
    refine ⟨rfl, findOrder_setOrder_self s.orders _, ?_⟩
    intro j o hg hst
    have hjlt : j < s.nextOrderId := by
      rw [← findOrder_some_id hg]
      exact hfr o (findOrder_mem hg)
    show findOrder (setOrder s.orders _) j = some o
    rw [findOrder_setOrder_ne s.orders _ (Nat.ne_of_lt hjlt)]
    exact hg

/-- A store holding one `completed` order. -/
def oneCompletedStore : Store :=
  { orders := [⟨1, 7, Status.completed, some Location.left_buffer, 300, none, none, none, none, 10, 20⟩]
    orderItems := [(1, [⟨1, 1, 1, 2, 150⟩])]
    products := initialProducts
    nextOrderId := 2
    nextOrderItemId := 2 }

/-- C7 counterexample: the checkout store operation (`updateOrderStatus` to
`pending` with a destination) applied to an order in status `completed`
reports success and overwrites the status, instead of failing and leaving it
unchanged as the claim requires. -/
theorem updateOrderStatus_ignores_current_status :
    (updateOrderStatus oneCompletedStore 1 Status.pending (some Location.left_buffer) none 30).1 = true
    ∧ getOrder (updateOrderStatus oneCompletedStore 1 Status.pending (some Location.left_buffer) none 30).2 1 =
        some ⟨1, 7, Status.pending, some Location.left_buffer, 300, none, none, none, none, 10, 30⟩ := by
  decide

/-- C7, amended: the store-level `updateOrderStatus` performs no
current-status check — it succeeds on every existing order whatever its
status. Checkout from `cart` only is enforced by the caller: `processCheckout`
only ever targets the customer's cart order obtained from
`getOrCreateCartOrder` (aborting when the cart is empty), so every order not
in status `cart` is left untouched by a checkout; and on a nonempty cart the
checkout succeeds, setting status `pending` and attaching the destination. -/
theorem checkout_cart_only_amended :
    (∀ (s : Store) (oid : Nat) (loc : Option Location) (dd : Option DeliveryDetails)
       (now : Nat) (o : Order), getOrder s oid = some o →
       (updateOrderStatus s oid Status.pending loc dd now).1 = true)
    ∧ (∀ (s : Store) (uid : Nat) (loc : Location) (dd : Option DeliveryDetails) (now : Nat),
        NodupIds s → FreshIds s →
        ∀ (j : Nat) (o : Order), getOrder s j = some o → o.status ≠ Status.cart →
          getOrder (processCheckout s uid loc dd now).2 j = some o)
    ∧ (∀ (s : Store) (uid : Nat) (loc : Location) (dd : Option DeliveryDetails) (now : Nat)
        (cart : Order), NodupIds s → findCart s.orders uid = some cart →
        getItems s cart.id ≠ [] →
        (processCheckout s uid loc dd now).1 = true
        ∧ ∃ o2, getOrder (processCheckout s uid loc dd now).2 cart.id = some o2
            ∧ o2.status = Status.pending ∧ o2.pickup_location = some loc) := by
  refine ⟨?_, ?_, ?_⟩
  · intro s oid loc dd now o hg
    rw [updateOrderStatus_found hg]
  · intro s uid loc dd now hn hfr j o hgj hst
    rcases getOrCreateCartOrder_facts s uid now hn hfr with ⟨hcart, hself, hothers⟩
    have hg2 : getOrder (getOrCreateCartOrder s uid now).2 j = some o := hothers j o hgj hst
    have hjne : j ≠ (getOrCreateCartOrder s uid now).1.id := by
      intro hc
      rw [hc, hself] at hg2
      cases hg2
      exact hst hcart
    have how : getOrderWithItems (getOrCreateCartOrder s uid now).2
        (getOrCreateCartOrder s uid now).1.id =
        some ⟨(getOrCreateCartOrder s uid now).1,
          (getItems (getOrCreateCartOrder s uid now).2 (getOrCreateCartOrder s uid now).1.id).map
            (fun it => ⟨it, getProductById (getOrCreateCartOrder s uid now).2 it.product_id⟩)⟩ := by
      unfold getOrderWithItems
      rw [hself]
    simp only [processCheckout, how]
    by_cases hemp : ((getItems (getOrCreateCartOrder s uid now).2 (getOrCreateCartOrder s uid now).1.id).map (fun it => (⟨it, getProductById (getOrCreateCartOrder s uid now).2 it.product_id⟩ : ItemWithProduct))).isEmpty
    · rw [if_pos hemp]
      exact hg2
    · rw [if_neg hemp]
      rw [updateOrderStatus_found hself]
      show findOrder (setOrder _ _) j = some o
      rw [findOrder_setOrder_ne]
      · exact hg2
      · have hid := (updOrder_fields (getOrCreateCartOrder s uid now).1 Status.pending (some loc) dd now).1
        rw [hid]
        exact hjne
  · intro s uid loc dd now cart hn hf hitems
    have hm := findCart_mem hf
    have hself : getOrder s cart.id = some cart := findOrder_eq_self_of_nodup hn hm.1
    have hpc := getOrCreateCartOrder_existing now hf
    have how : getOrderWithItems s cart.id =
        some ⟨cart, (getItems s cart.id).map (fun it => ⟨it, getProductById s it.product_id⟩)⟩ := by
      unfold getOrderWithItems
      rw [hself]
    simp only [processCheckout, hpc, how]
    have hemp : ((getItems s cart.id).map (fun it => (⟨it, getProductById s it.product_id⟩ : ItemWithProduct))).isEmpty = false := by
      rw [List.isEmpty_eq_false_iff_exists_mem]
      rcases List.exists_mem_of_ne_nil _ hitems with ⟨it, hit⟩
      exact ⟨_, List.mem_map_of_mem _ hit⟩
    rw [hemp]
    simp only [Bool.false_eq_true, if_false]
    rw [updateOrderStatus_found hself]
    refine ⟨rfl, updOrder cart Status.pending (some loc) dd now, ?_, ?_, ?_⟩
    · have hid := (updOrder_fields cart Status.pending (some loc) dd now).1
      show findOrder (setOrder _ _) cart.id = _
      have := findOrder_setOrder_self s.orders (updOrder cart Status.pending (some loc) dd now)
      rwa [hid] at this
    · exact (updOrder_fields cart Status.pending (some loc) dd now).2.2.1
    · exact updOrder_pickup_some cart Status.pending rfl dd now

/-- Witness for the amended C7: on `demoSellerStore` (whose two orders are
`pending`), a checkout call for customer 7 leaves order 2 untouched, and a
checkout of the concrete nonempty cart in `demoCartStoreWithItem` succeeds. -/
theorem checkout_cart_only_amended_witness :
    (updateOrderStatus oneCompletedStore 1 Status.pending (some Location.right_buffer) none 31).1 = true
    ∧ getOrder (processCheckout demoSellerStore 7 Location.left_buffer none 99).2 2 =
        some ⟨2, 8, Status.pending, some Location.right_buffer, 150, none, none, none, none, 12, 13⟩ :=
  ⟨checkout_cart_only_amended.1 oneCompletedStore 1 (some Location.right_buffer) none 31
     ⟨1, 7, Status.completed, some Location.left_buffer, 300, none, none, none, none, 10, 20⟩ (by decide),
   checkout_cart_only_amended.2.1 demoSellerStore 7 Location.left_buffer none 99 (by decide)
     (by decide) 2 ⟨2, 8, Status.pending, some Location.right_buffer, 150, none, none, none, none, 12, 13⟩
     (by decide) (by decide)⟩

theorem updOrder_none_dd_delivery_fields (o : Order) (st : Status) (l : Location) (now : Nat) :
    (updOrder o st (some l) none now).delivery_side = o.delivery_side
    ∧ (updOrder o st (some l) none now).sector = o.sector
    ∧ (updOrder o st (some l) none now).seat_row = o.seat_row
    ∧ (updOrder o st (some l) none now).seat_number = o.seat_number := by
  simp [updOrder]

theorem updOrder_delivery_fields_of_ne (o : Order) (st : Status) {loc : Option Location}
    (dd : Option DeliveryDetails) (now : Nat) (h : loc ≠ some Location.delivery) :
    (updOrder o st loc dd now).delivery_side = o.delivery_side
    ∧ (updOrder o st loc dd now).sector = o.sector
    ∧ (updOrder o st loc dd now).seat_row = o.seat_row
    ∧ (updOrder o st loc dd now).seat_number = o.seat_number := by
  cases dd with
  | none => cases loc <;> simp [updOrder]
  | some d =>
    cases loc with
    | none => simp [updOrder]
    | some l => simp [updOrder, h]

/-- A store holding a nonempty `cart` order for customer 7. -/
def demoDeliveryCartStore : Store :=
  { orders := [⟨1, 7, Status.cart, none, 150, none, none, none, none, 0, 0⟩]
    orderItems := [(1, [⟨1, 1, 1, 1, 150⟩])]
    products := initialProducts
    nextOrderId := 2
    nextOrderItemId := 2 }

/-- The cart order of `demoDeliveryCartStore`. -/
def demoDeliveryCartOrder : Order :=
  ⟨1, 7, Status.cart, none, 150, none, none, none, none, 0, 0⟩

/-- C4 counterexample: the store-level checkout (`updateOrderStatus` to
`pending` at destination `delivery`) with an incomplete coordinate tuple —
only the sector supplied — reports success and moves the cart order to
`pending` with partial coordinates, instead of failing and leaving the status
at `cart` as the claim requires. -/
theorem updateOrderStatus_accepts_incomplete_delivery :
    updateOrderStatus demoDeliveryCartStore 1 Status.pending (some Location.delivery)
      (some ⟨none, some 2, none, none⟩) 5 =
      (true, { demoDeliveryCartStore with orders := [⟨1, 7, Status.pending, some Location.delivery, 150, none, some 2, none, none, 0, 5⟩] }) := by
  decide

/-- C4, amended: completeness of the delivery coordinates is enforced only in
the caller, not in the store. The delivery wizard (`completeDeliveryProcess`)
fails without touching the store — leaving the order's status at `cart` —
whenever any of orderId, side, sector, row, seat is missing from the session;
with a complete session it commits all four coordinates and moves the order to
`pending` at destination `delivery`. The store operation `updateOrderStatus`
itself accepts an incomplete tuple (see the counterexample), and copies
delivery coordinates only when the destination argument is `delivery`. -/
theorem delivery_checkout_amended :
    (∀ (s : Store) (sess : DeliverySession) (now : Nat),
       (sess.orderId = none ∨ sess.side = none ∨ sess.sector = none ∨ sess.row = none ∨
         sess.seat = none) →
       completeDeliveryProcess s sess now = (false, s))
    ∧ (∀ (s : Store) (oid : Nat) (side : Side) (sector : Nat) (row seat : String)
        (now : Nat) (o : Order),
        getOrder s oid = some o → oid ≠ 0 → sector ≠ 0 → row ≠ "" → seat ≠ "" →
        (completeDeliveryProcess s ⟨some side, some sector, some row, some seat, some oid⟩ now).1 = true
        ∧ ∃ o2, getOrder (completeDeliveryProcess s ⟨some side, some sector, some row, some seat, some oid⟩ now).2 oid = some o2
            ∧ o2.status = Status.pending ∧ o2.pickup_location = some Location.delivery
            ∧ o2.delivery_side = some side ∧ o2.sector = some sector
            ∧ o2.seat_row = some row ∧ o2.seat_number = some seat)
    ∧ (∀ (s : Store) (oid : Nat) (st : Status) (loc : Option Location)
        (dd : Option DeliveryDetails) (now : Nat) (o : Order),
        getOrder s oid = some o → loc ≠ some Location.delivery →
        ∃ o2, getOrder (updateOrderStatus s oid st loc dd now).2 oid = some o2
          ∧ o2.delivery_side = o.delivery_side ∧ o2.sector = o.sector
          ∧ o2.seat_row = o.seat_row ∧ o2.seat_number = o.seat_number) := by
  refine ⟨?_, ?_, ?_⟩
  · intro s sess now hmiss
    rcases sess with ⟨sd, sec, r, st2, oid2⟩
    cases oid2 <;> cases sd <;> cases sec <;> cases r <;> cases st2 <;>
      (simp only [completeDeliveryProcess]; try simp_all)
  · intro s oid side sector row seat now o hg h0 hsec hrow hseat
    have hguard : ¬ (oid = 0 ∨ sector = 0 ∨ row = "" ∨ seat = "") := by
      push_neg
      exact ⟨h0, hsec, hrow, hseat⟩
    have hid : o.id = oid := findOrder_some_id hg
    have hdet : updateOrderDeliveryDetails s oid side sector row seat now =
        (true, { s with orders := setOrder s.orders { o with delivery_side := some side, sector := some sector, seat_row := some row, seat_number := some seat, updated_at := now } }) := by
      unfold updateOrderDeliveryDetails
      rw [hg]
    have hg2 : getOrder { s with orders := setOrder s.orders { o with delivery_side := some side, sector := some sector, seat_row := some row, seat_number := some seat, updated_at := now } } oid =
        some { o with delivery_side := some side, sector := some sector, seat_row := some row, seat_number := some seat, updated_at := now } :=
      getOrder_set_self s _ hid
    simp only [completeDeliveryProcess]
    rw [if_neg hguard, hdet]
    simp only [if_true]
    rw [updateOrderStatus_found hg2]
    set o2 : Order := { o with delivery_side := some side, sector := some sector, seat_row := some row, seat_number := some seat, updated_at := now } with ho2
    refine ⟨rfl, updOrder o2 Status.pending (some Location.delivery) none now, ?_, ?_, ?_, ?_, ?_, ?_, ?_⟩
    · have hid3 := (updOrder_fields o2 Status.pending (some Location.delivery) none now).1
      show findOrder (setOrder _ _) oid = _
      have := findOrder_setOrder_self
        { s with orders := setOrder s.orders o2 }.orders
        (updOrder o2 Status.pending (some Location.delivery) none now)
      rwa [hid3, show o2.id = oid from hid] at this
    · exact (updOrder_fields o2 Status.pending (some Location.delivery) none now).2.2.1
    · exact updOrder_pickup_some o2 Status.pending rfl none now
    · exact (updOrder_none_dd_delivery_fields o2 Status.pending Location.delivery now).1
    · exact (updOrder_none_dd_delivery_fields o2 Status.pending Location.delivery now).2.1
    · exact (updOrder_none_dd_delivery_fields o2 Status.pending Location.delivery now).2.2.1
    · exact (updOrder_none_dd_delivery_fields o2 Status.pending Location.delivery now).2.2.2
  · intro s oid st loc dd now o hg hne
    rw [updateOrderStatus_found hg]
    refine ⟨updOrder o st loc dd now, ?_, ?_⟩
    · have hid := (updOrder_fields o st loc dd now).1
      show findOrder (setOrder _ _) oid = _
      have := findOrder_setOrder_self s.orders (updOrder o st loc dd now)
      rwa [hid, findOrder_some_id hg] at this
    · exact updOrder_delivery_fields_of_ne o st dd now hne

/-- Witness for the amended C4: the wizard rejects an all-empty session on the
freshly constructed store, and with a complete session it checks out the
concrete cart of `demoDeliveryCartStore` to `pending`. -/
theorem delivery_checkout_amended_witness :
    completeDeliveryProcess Store.init ⟨none, none, none, none, none⟩ 0 = (false, Store.init)
    ∧ (completeDeliveryProcess demoDeliveryCartStore
        ⟨some Side.left, some 2, some "5", some "12", some 1⟩ 9).1 = true :=
  ⟨delivery_checkout_amended.1 Store.init ⟨none, none, none, none, none⟩ 0 (Or.inl rfl),
   (delivery_checkout_amended.2.1 demoDeliveryCartStore 1 Side.left 2 "5" "12" 9
     demoDeliveryCartOrder (by decide) (by decide) (by decide) (by decide) (by decide)).1⟩

end TelegramBot
